import Mathlib

/-!
Verification development for the provider-routing / session-state core of the
telegram-ai-assistant repository.

The Python source is shallowly embedded:
* `src/utils/config.py` — `Config` (the two numeric knobs the claims need).
* `src/services/cache/redis_client.py` — the conversation store
  (`add_to_conversation_history`, `get_conversation_history`), with the Redis
  list represented structurally: head of the list = head of the Redis list
  (most recently pushed entry).  JSON (de)serialisation and the TTL reset are
  abstracted away: entries are stored structurally, and no claim concerns
  expiry.  "Cache unreachable" is the `_initialized = false` state, in which
  every operation is a no-op exactly as in the source.
* `src/bot/handlers/messages.py` — `_check_rate_limit`, with `time.time()`
  instants embedded as rationals (only order and subtraction by 60 matter).
* `src/services/ai/ai_service.py` — `AIService._get_user_provider`,
  `generate_response` and `test_provider`.  The adapters' network calls are
  abstracted by an oracle `GenOracle`; a `.error` result models an exception
  escaping the adapter layer (the adapters themselves catch their own errors,
  so the oracle's `.ok` results already include classified failure notices).
  Python truthiness is modelled faithfully: `if user_id:` is false for `None`
  and `0`, `if s:` on a string is false for the empty string.
* `src/services/ai/base_provider.py` — the fixed fallback-notice list;
  `random.choice` is embedded by passing the drawn index as a parameter.
* `src/services/ai/openai_provider.py` / `claude_provider.py` —
  `validate_config`, with API keys embedded as `List Char` so that prefix
  reasoning is elementary.
-/

/-- `Config` from `src/utils/config.py`: the two environment-configurable
numbers the claims are about.  `defaultConfig` holds the documented defaults
(`MAX_CONVERSATION_HISTORY = 10`, `RATE_LIMIT_PER_MINUTE = 30`). -/
structure Config where
  maxConversationHistory : Nat
  rateLimitPerMinute : Nat
deriving DecidableEq, Repr

def defaultConfig : Config := ⟨10, 30⟩

/-- A role/content message dict, as passed between handler, service and
adapters (`{"role": ..., "content": ...}`). -/
structure ChatMessage where
  role : String
  content : String
deriving DecidableEq, Repr

/-- One Redis conversation-list item, the JSON object built in
`add_to_conversation_history`: `{"timestamp", "user_message", "ai_response"}`.
Note that a single list item holds a full user+assistant pair. -/
structure ConversationEntry where
  timestamp : String
  userMessage : String
  aiResponse : String
deriving DecidableEq, Repr

/-- The state of `RedisClient` that the conversation-store claims touch:
the `_initialized` flag and, per user id, the Redis list stored at key
`conversation:{user_id}` (head = most recently LPUSHed entry). -/
structure RedisState where
  initialized : Bool
  conv : Nat → List ConversationEntry

/-- A freshly initialized client with an empty cache. -/
def initialState : RedisState := ⟨true, fun _ => []⟩

/-- An uninitialized client (`_initialized = False`): the cache is
unreachable and every operation degrades to a no-op. -/
def unreachableState : RedisState := ⟨false, fun _ => []⟩

/-- Redis `LTRIM key 0 stop`: keeps the elements with indexes `0..stop`,
where a negative `stop` counts from the tail (`-1` = last element, so
`LTRIM key 0 -1` keeps the whole list). -/
def ltrimKeep (stop : Int) (l : List α) : List α :=
  if stop < 0 then l.take ((l.length : Int) + stop + 1).toNat
  else l.take (stop.toNat + 1)

/-- `RedisClient.add_to_conversation_history` (redis_client.py:53-85):
no-op when not initialized; otherwise LPUSH one entry holding both the user
message and the AI response, LTRIM to indexes
`0 .. MAX_CONVERSATION_HISTORY*2 - 1`, and reset the 24h TTL (the TTL is not
modelled; no claim concerns it). -/
def addToConversationHistory (cfg : Config) (st : RedisState) (userId : Nat)
    (userMessage aiResponse : String) (nowIso : String) : RedisState :=
  if st.initialized = false then st
  else
    let entry : ConversationEntry := ⟨nowIso, userMessage, aiResponse⟩
    let pushed := entry :: st.conv userId
    let maxHistory : Int := (cfg.maxConversationHistory : Int) * 2
    let trimmed := ltrimKeep (maxHistory - 1) pushed
    ⟨st.initialized, fun u => if u = userId then trimmed else st.conv u⟩

/-- The expansion performed by the read loop: each stored entry becomes a
`user` message immediately followed by an `assistant` message. -/
def expandEntry (e : ConversationEntry) : List ChatMessage :=
  [⟨"user", e.userMessage⟩, ⟨"assistant", e.aiResponse⟩]

/-- `RedisClient.get_conversation_history` (redis_client.py:88-123):
`[]` when not initialized; otherwise `LRANGE key 0 -1` (the whole list, in
list order: most recently pushed first) with each entry expanded into its
user message followed by its assistant message.  The JSON-decode-failure
skip is not modelled (entries are stored structurally). -/
def getConversationHistory (st : RedisState) (userId : Nat) : List ChatMessage :=
  if st.initialized = false then []
  else (st.conv userId).flatMap expandEntry

/-- Perform a sequence of conversation turns `(user_message, ai_response)`
for one user, in chronological order (timestamps are irrelevant to the
claims and are passed as `""`). -/
def runAppends (cfg : Config) (st : RedisState) (userId : Nat)
    (turns : List (String × String)) : RedisState :=
  turns.foldl (fun s t => addToConversationHistory cfg s userId t.1 t.2 "") st

/-- `MessageHandler._check_rate_limit` (messages.py:78-97).  The per-user
window `rate_limit_cache` maps a user id to the list of admitted request
instants; instants are rationals standing for `time.time()` values.  The
function prunes (into a local copy) the instants not strictly newer than
`now - 60`, rejects without writing anything back when at least
`RATE_LIMIT_PER_MINUTE` remain, and otherwise stores the pruned list with
`now` appended.  Returns `(admitted, new cache)`. -/
def checkRateLimit (cfg : Config) (cache : Nat → List ℚ) (userId : Nat)
    (now : ℚ) : Bool × (Nat → List ℚ) :=
  let minuteAgo := now - 60
  let userRequests := cache userId
  let pruned := userRequests.filter (fun t => decide (minuteAgo < t))
  if cfg.rateLimitPerMinute ≤ pruned.length then
    (false, cache)
  else
    (true, fun u => if u = userId then pruned ++ [now] else cache u)

/-- States of the in-process rate-limit cache reachable from the fresh
handler state (`self.rate_limit_cache = {}`, i.e. every user maps to `[]`)
by any sequence of `_check_rate_limit` calls, for a fixed process
configuration. -/
inductive RateReachable (cfg : Config) : (Nat → List ℚ) → Prop where
  | init : RateReachable cfg (fun _ => [])
  | step (c : Nat → List ℚ) (userId : Nat) (now : ℚ) :
      RateReachable cfg c → RateReachable cfg (checkRateLimit cfg c userId now).2

/-- An adapter instance as constructed by the providers' `__init__` /
`set_parameters`: its kind (`"openai"` / `"claude"` / whatever name a
registered instance was stored under), its API key, its model and its fixed
generation parameters. -/
structure ProviderInstance where
  providerKind : String
  apiKey : String
  model : String
  maxTokens : Nat
  temperature : ℚ
deriving DecidableEq, Repr

/-- The behaviour of the backend network boundary: given the adapter
instance issuing the call and the message sequence, produce either the text
the adapter's `generate_response` returns (which already includes the
classified failure notices the adapters produce internally) or `.error`,
modelling an exception escaping the adapter layer. -/
abbrev GenOracle := ProviderInstance → List ChatMessage → Except Unit String

/-- One value of the in-memory `AIService.user_preferences` dict:
`{"provider": provider, "model": model}` as stored by
`set_user_preference`. -/
structure SessionPref where
  provider : String
  model : Option String
deriving DecidableEq, Repr

/-- The slice of `UserSettingsService` that `AIService` reads:
`get_user_provider`, `get_user_model` and `get_user_api_keys` (the latter as
a per-user partial map from provider name to credential). -/
structure UserSettings where
  providerOf : Nat → Option String
  modelOf : Nat → Option String
  apiKeysOf : Nat → String → Option String

/-- The state of `AIService` (ai_service.py): the registry of process-wide
adapters (`self.providers`), the process-wide default (`self.current_provider`),
the in-memory session overrides (`self.user_preferences`) and the optional
durable settings service (`self.user_settings_service`). -/
structure AIService where
  providers : String → Option ProviderInstance
  currentProvider : Option ProviderInstance
  userPreferences : Nat → Option SessionPref
  userSettingsService : Option UserSettings

/-- Python truthiness of the `user_id: int = None` argument:
`None` and `0` are falsy. -/
def pyTruthyId : Option Nat → Bool
  | none => false
  | some u => u ≠ 0

/-- `AIService._get_user_provider` (ai_service.py:62-97): without a settings
service, or without a (truthy) stored credential for `providerName`, fall
back to the registered process-wide adapter; otherwise construct a fresh
adapter with the user's credential, the provider's hard-coded default model
and `set_parameters(max_tokens=1000, temperature=0.7)`.  (The `except`
branch around construction is dead in the model, since construction cannot
fail; it also falls back to the registered adapter in the source.) -/
def getUserProvider (svc : AIService) (userId : Nat) (providerName : String) :
    Option ProviderInstance :=
  match svc.userSettingsService with
  | none => svc.providers providerName
  | some uss =>
    match uss.apiKeysOf userId providerName with
    | none => svc.providers providerName
    | some key =>
      if key = "" then svc.providers providerName
      else if providerName = "openai" then
        some ⟨"openai", key, "gpt-3.5-turbo", 1000, 7 / 10⟩
      else if providerName = "claude" then
        some ⟨"claude", key, "claude-3-haiku-20240307", 1000, 7 / 10⟩
      else svc.providers providerName

/-- The fixed service-unavailable text returned by `generate_response` when
no provider is available. -/
def unavailableText : String := "Извините, AI сервис временно недоступен."

/-- The single generic apology produced by `generate_response`'s outermost
`except` handler. -/
def apologyText : String := "Произошла ошибка при обработке запроса. Попробуйте позже."

/-- The in-memory path's `if model: provider_instance.model = model`
mutation (a falsy — absent or empty — model leaves the instance as
constructed). -/
def applyModelOverride (inst : ProviderInstance) : Option String → ProviderInstance
  | none => inst
  | some m => if m = "" then inst else ⟨inst.providerKind, inst.apiKey, m, inst.maxTokens, inst.temperature⟩

/-- The tail of `generate_response`'s try block: `if self.current_provider:`
use it, else return the fixed unavailable text (ai_service.py:129-136). -/
def currentRun (svc : AIService) (g : GenOracle) (messages : List ChatMessage) :
    Except Unit String :=
  match svc.currentProvider with
  | some p => g p messages
  | none => Except.ok unavailableText

/-- The `# Fallback to in-memory preferences` block of `generate_response`
(ai_service.py:115-127): a (truthy) session override routes through
`_get_user_provider` with the in-memory model override applied; otherwise
fall through to the current-provider tail. -/
def inMemoryRun (svc : AIService) (g : GenOracle) (messages : List ChatMessage)
    (userId : Nat) : Except Unit String :=
  match svc.userPreferences userId with
  | some pref =>
    if pref.provider = "" then currentRun svc g messages
    else
      match getUserProvider svc userId pref.provider with
      | some inst => g (applyModelOverride inst pref.model) messages
      | none => currentRun svc g messages
  | none => currentRun svc g messages

/-- The `# Check user settings first` block of `generate_response`
(ai_service.py:107-113): a (truthy) durable selected provider routes
through `_get_user_provider`; otherwise fall through to the in-memory
block. -/
def userSettingsRun (svc : AIService) (g : GenOracle) (messages : List ChatMessage)
    (userId : Nat) : Except Unit String :=
  match svc.userSettingsService with
  | some uss =>
    match uss.providerOf userId with
    | some up =>
      if up = "" then inMemoryRun svc g messages userId
      else
        match getUserProvider svc userId up with
        | some inst => g inst messages
        | none => inMemoryRun svc g messages userId
    | none => inMemoryRun svc g messages userId
  | none => inMemoryRun svc g messages userId

/-- The whole try block of `AIService.generate_response`
(ai_service.py:103-136): the user-specific blocks run only under
`if user_id:`. -/
def generateTry (svc : AIService) (g : GenOracle) (messages : List ChatMessage)
    (userId : Option Nat) : Except Unit String :=
  match userId with
  | some u => if u = 0 then currentRun svc g messages else userSettingsRun svc g messages u
  | none => currentRun svc g messages

/-- `AIService.generate_response` (ai_service.py:101-140): the try block
with the outermost catch-all converting any escaped exception into the
generic apology. -/
def generateResponse (svc : AIService) (g : GenOracle) (messages : List ChatMessage)
    (userId : Option Nat) : String :=
  match generateTry svc g messages userId with
  | Except.ok s => s
  | Except.error _ => apologyText

/-- The provider instance `generate_response` would hand the call to, i.e.
the resolution order of the source: durable user settings (fresh adapter),
then in-memory session override (with model override), then the
process-wide current provider; `none` when nothing resolves.  Proven
equivalent to the executable embedding in `generateTry_eq_resolve`. -/
def resolveProvider (svc : AIService) (userId : Option Nat) : Option ProviderInstance :=
  match userId with
  | none => svc.currentProvider
  | some u =>
    if u = 0 then svc.currentProvider
    else
      match svc.userSettingsService with
      | some uss =>
        match uss.providerOf u with
        | some up =>
          if up = "" then resolveInMemory svc u
          else
            match getUserProvider svc u up with
            | some inst => some inst
            | none => resolveInMemory svc u
        | none => resolveInMemory svc u
      | none => resolveInMemory svc u
where
  /-- The instance the in-memory block resolves to. -/
  resolveInMemory (svc : AIService) (u : Nat) : Option ProviderInstance :=
    match svc.userPreferences u with
    | some pref =>
      if pref.provider = "" then svc.currentProvider
      else
        match getUserProvider svc u pref.provider with
        | some inst => some (applyModelOverride inst pref.model)
        | none => svc.currentProvider
    | none => svc.currentProvider

/-- A credential provenance bound for the instance a call for user `u` is
routed to: its API key is either that of a registered process-wide adapter,
that of the process-wide default, or a credential stored for `u` (this
user) in the durable settings — never another user's stored credential. -/
def credentialAllowed (svc : AIService) (u : Nat) (inst : ProviderInstance) : Prop :=
  (∃ p i, svc.providers p = some i ∧ inst.apiKey = i.apiKey)
  ∨ (∃ i, svc.currentProvider = some i ∧ inst.apiKey = i.apiKey)
  ∨ (∃ uss p k, svc.userSettingsService = some uss ∧ uss.apiKeysOf u p = some k ∧ inst.apiKey = k)

/-- `BaseAIProvider.get_fallback_response` (base_provider.py:27-39): the
fixed list of generic service-unavailable notices from which `random.choice`
draws. -/
def fallbackResponses : List String :=
  [ "Извините, у меня временные технические проблемы. Попробуйте через несколько минут.",
    "К сожалению, я сейчас не могу обработать ваш запрос. Попробуйте позже.",
    "Произошла ошибка при обработке вашего сообщения. Попробуйте еще раз.",
    "Сервис временно недоступен. Пожалуйста, попробуйте через некоторое время.",
    "🤖 Привет! Я AI-ассистент. К сожалению, сейчас у меня проблемы с подключением к сервису. Попробуйте позже!",
    "💬 Здравствуйте! Сейчас я не могу обработать ваш запрос из-за технических проблем. Попробуйте через несколько минут." ]

/-- `get_fallback_response` with the pseudo-random draw made explicit:
`draw` indexes the element `random.choice` picks. -/
def getFallbackResponse (draw : Nat) : String :=
  fallbackResponses.getD (draw % fallbackResponses.length) ""

/-- The trivial prompt `test_provider` sends:
`[{"role": "user", "content": "Hello"}]`. -/
def testMessages : List ChatMessage := [⟨"user", "Hello"⟩]

/-- The tail of `AIService.test_provider` (ai_service.py:153-163): the
process-wide-provider test.  `draw` is the index `random.choice` picks
inside `get_fallback_response`; the returned boolean is the truthiness of
`response and response != provider.get_fallback_response()`. -/
def testProviderGlobal (svc : AIService) (g : GenOracle) (draw : Nat)
    (providerName : String) : Except Unit Bool :=
  match svc.providers providerName with
  | none => Except.ok false
  | some p =>
    match g p testMessages with
    | Except.ok response => Except.ok (response ≠ "" ∧ response ≠ getFallbackResponse draw : Bool)
    | Except.error e => Except.error e

/-- The try block of `AIService.test_provider` (ai_service.py:144-163):
under `if user_id and self.user_settings_service:`, test through the
user-resolved instance; otherwise (or when `_get_user_provider` yields
nothing) test the registered process-wide provider. -/
def testProviderTry (svc : AIService) (g : GenOracle) (draw : Nat)
    (providerName : String) (userId : Option Nat) : Except Unit Bool :=
  if pyTruthyId userId ∧ svc.userSettingsService.isSome then
    match userId with
    | some u =>
      match getUserProvider svc u providerName with
      | some inst =>
        match g inst testMessages with
        | Except.ok response => Except.ok (response ≠ "" ∧ response ≠ getFallbackResponse draw : Bool)
        | Except.error e => Except.error e
      | none => testProviderGlobal svc g draw providerName
    | none => testProviderGlobal svc g draw providerName
  else testProviderGlobal svc g draw providerName

/-- `AIService.test_provider` (ai_service.py:142-167): the try block with
the catch-all returning `False` on any exception. -/
def testProvider (svc : AIService) (g : GenOracle) (draw : Nat)
    (providerName : String) (userId : Option Nat) : Bool :=
  match testProviderTry svc g draw providerName userId with
  | Except.ok b => b
  | Except.error _ => false

/-- The key format accepted by `OpenAIProvider.validate_config`
(openai_provider.py:19-21): the single literal required start `sk-`. -/
def openaiKeyStart : List Char := ['s', 'k', '-']

/-- First valid Claude key start, `sk-ant-`
(claude_provider.py:22). -/
def claudeKeyStart1 : List Char := ['s', 'k', '-', 'a', 'n', 't', '-']

/-- Second valid Claude key start, `sk-ant_api03-`. -/
def claudeKeyStart2 : List Char :=
  ['s', 'k', '-', 'a', 'n', 't', '_', 'a', 'p', 'i', '0', '3', '-']

/-- Third valid Claude key start, `sk-ant_api04-`. -/
def claudeKeyStart3 : List Char :=
  ['s', 'k', '-', 'a', 'n', 't', '_', 'a', 'p', 'i', '0', '4', '-']

/-- `OpenAIProvider.validate_config` (openai_provider.py:19-21):
`bool(self.api_key and self.api_key.startswith('sk-'))`, with the key as a
character list. -/
def openaiValidateConfig (apiKey : List Char) : Bool :=
  (!apiKey.isEmpty) && openaiKeyStart.isPrefixOf apiKey

/-- `ClaudeProvider.validate_config` (claude_provider.py:19-23):
`bool(self.api_key and any(self.api_key.startswith(prefix) for prefix in
valid_prefixes))` over the three-element `valid_prefixes` list. -/
def claudeValidateConfig (apiKey : List Char) : Bool :=
  (!apiKey.isEmpty) &&
    [claudeKeyStart1, claudeKeyStart2, claudeKeyStart3].any (fun p => p.isPrefixOf apiKey)

/-- A process-wide OpenAI adapter as registered at startup from the
environment credential. -/
def openaiEnvInstance : ProviderInstance :=
  ⟨"openai", "sk-envkey", "gpt-3.5-turbo", 1000, 7 / 10⟩

/-- A process-wide Claude adapter as registered at startup from the
environment credential (`CLAUDE_MODEL` default). -/
def claudeEnvInstance : ProviderInstance :=
  ⟨"claude", "sk-ant-envkey", "claude-3-opus-20240229", 1000, 7 / 10⟩

/-- An observing oracle: the backend answers with the kind of the adapter
that called it, so theorems can see which adapter a call was routed to. -/
def gKindOracle : GenOracle := fun inst _ => Except.ok inst.providerKind

/-- An oracle on which every call yields the first fallback notice (the
adapter failed and drew notice 0). -/
def gFallback0 : GenOracle := fun _ _ => Except.ok (fallbackResponses.getD 0 "")

/-- An oracle on which every call raises (a transport-level crash). -/
def gRaise : GenOracle := fun _ _ => Except.error ()

/-- A service with nothing registered and no settings service. -/
def svcEmpty : AIService := ⟨fun _ => none, none, fun _ => none, none⟩

/-- Durable settings where user 7 selected `openai`, stored an `openai`
credential, and also stored a preferred model (`gpt-4`). -/
def ussU7 : UserSettings :=
  ⟨fun u => if u = 7 then some "openai" else none,
   fun u => if u = 7 then some "gpt-4" else none,
   fun u p => if u = 7 then (if p = "openai" then some "sk-user7" else none) else none⟩

/-- A fully populated service: both process-wide adapters registered, the
Claude one designated as current provider, no session overrides, and the
durable settings `ussU7`. -/
def svcU7 : AIService :=
  ⟨fun p => if p = "openai" then some openaiEnvInstance
    else if p = "claude" then some claudeEnvInstance else none,
   some claudeEnvInstance,
   fun _ => none,
   some ussU7⟩

/-- Durable settings where user 5 selected `openai` but stored no
credential at all. -/
def ussC6 : UserSettings :=
  ⟨fun u => if u = 5 then some "openai" else none,
   fun _ => none,
   fun _ _ => none⟩

/-- Both adapters registered, Claude current, an in-memory session override
to `claude` for user 5, durable selection `openai` without credential. -/
def svcC6 : AIService :=
  ⟨fun p => if p = "openai" then some openaiEnvInstance
    else if p = "claude" then some claudeEnvInstance else none,
   some claudeEnvInstance,
   fun u => if u = 5 then some ⟨"claude", none⟩ else none,
   some ussC6⟩

/-- Durable settings for user 7 with only an `openai` credential (no
selected provider). -/
def ussMem : UserSettings :=
  ⟨fun _ => none,
   fun _ => none,
   fun u p => if u = 7 then (if p = "openai" then some "sk-user7" else none) else none⟩

/-- A service whose only route to user 7 is the in-memory session override
`{"provider": "openai", "model": "gpt-4"}`. -/
def svcMem : AIService :=
  ⟨fun _ => none, none,
   fun u => if u = 7 then some ⟨"openai", some "gpt-4"⟩ else none,
   some ussMem⟩

/-! ## Conversation store: helper lemmas -/

theorem ltrimKeep_of_pos (k : Nat) (hk : 1 ≤ k) (l : List α) :
    ltrimKeep ((k : Int) - 1) l = l.take k := by
  unfold ltrimKeep
  have h0 : ¬ ((k : Int) - 1 < 0) := by omega
  rw [if_neg h0]
  congr 1
  omega

theorem flatMap_map_eq (f : α → β) (g : β → List γ) (l : List α) :
    (l.map f).flatMap g = l.flatMap (fun a => g (f a)) := by
  induction l with
  | nil => rfl
  | cons a l ih => simp [ih]

/-- After any chronological sequence of appends starting from the fresh
initialized client, the stored Redis list for the user holds exactly the
most recent `2 * MAX_CONVERSATION_HISTORY` turns, most recent first. -/
theorem conv_runAppends (cfg : Config) (hN : 1 ≤ cfg.maxConversationHistory)
    (uid : Nat) (ts : List (String × String)) :
    (runAppends cfg initialState uid ts).initialized = true ∧
    (runAppends cfg initialState uid ts).conv uid =
      (ts.reverse.map (fun t => (⟨"", t.1, t.2⟩ : ConversationEntry))).take
        (2 * cfg.maxConversationHistory) := by
  induction ts using List.reverseRecOn with
  | nil =>
    refine ⟨rfl, ?_⟩
    show initialState.conv uid = _
    simp [initialState]
  | append_singleton ts t ih =>
    obtain ⟨ih1, ih2⟩ := ih
    have hfold : runAppends cfg initialState uid (ts ++ [t])
        = addToConversationHistory cfg (runAppends cfg initialState uid ts) uid t.1 t.2 "" := by
      unfold runAppends
      rw [List.foldl_append]
      rfl
    rw [hfold]
    constructor
    · simp [addToConversationHistory, ih1]
    · simp only [addToConversationHistory, ih1]
      have harith : (cfg.maxConversationHistory : Int) * 2 - 1
          = ((2 * cfg.maxConversationHistory : Nat) : Int) - 1 := by push_cast; ring
      simp only [Bool.true_eq_false, if_false, if_pos rfl, harith,
        ltrimKeep_of_pos (2 * cfg.maxConversationHistory) (by omega)]
      rw [ih2, List.reverse_append, List.reverse_singleton, List.singleton_append,
        List.map_cons]
      have h2N : 2 * cfg.maxConversationHistory = (2 * cfg.maxConversationHistory - 1) + 1 := by
        omega
      rw [h2N, List.take_succ_cons, List.take_succ_cons, List.take_take,
        min_eq_left (Nat.le_succ _)]
      simp

/-! ## Claim theorems: conversation store -/

/-- C1, counterexample.  The claim says `get_conversation_history` returns
entries oldest-first.  After appending the turn `("a", "b")` and then the
turn `("c", "d")`, the read returns the most recent turn `("c", "d")`
first — not the oldest-first sequence the claim predicts — because entries
are LPUSHed to the head and `LRANGE 0 -1` returns head-to-tail. -/
theorem conversation_read_oldest_first_cex :
    getConversationHistory (runAppends defaultConfig initialState 1 [("a", "b"), ("c", "d")]) 1
      = [⟨"user", "c"⟩, ⟨"assistant", "d"⟩, ⟨"user", "a"⟩, ⟨"assistant", "b"⟩]
    ∧ getConversationHistory (runAppends defaultConfig initialState 1 [("a", "b"), ("c", "d")]) 1
      ≠ [⟨"user", "a"⟩, ⟨"assistant", "b"⟩, ⟨"user", "c"⟩, ⟨"assistant", "d"⟩] := by
  decide

/-- C1, amended: for every user, `get_conversation_history` returns the
stored entries NEWEST-first (most recent turn first), each entry expanded
into a `(user, content)` message immediately followed by its
`(assistant, content)` message, and returns an empty sequence rather than
raising when the cache is unreachable (`_initialized = False`) or the user
has no history (empty turn list gives the empty expansion). -/
theorem conversation_read_newest_first (cfg : Config) (ts : List (String × String))
    (uid : Nat) (st : RedisState) (hN : 1 ≤ cfg.maxConversationHistory)
    (hst : st.initialized = false) :
    getConversationHistory (runAppends cfg initialState uid ts) uid
      = (ts.reverse.take (2 * cfg.maxConversationHistory)).flatMap
          (fun t => [⟨"user", t.1⟩, ⟨"assistant", t.2⟩])
    ∧ getConversationHistory st uid = [] := by
  constructor
  · obtain ⟨h1, h2⟩ := conv_runAppends cfg hN uid ts
    unfold getConversationHistory
    rw [h1]
    simp only [Bool.true_eq_false, if_false]
    rw [h2, ← List.map_take, flatMap_map_eq]
    rfl
  · unfold getConversationHistory
    rw [hst]
    rfl

/-- Closed witness for `conversation_read_newest_first` at a concrete
two-turn history and the unreachable client. -/
theorem conversation_read_newest_first_wit :
    getConversationHistory (runAppends defaultConfig initialState 1 [("a", "b"), ("c", "d")]) 1
      = (([("a", "b"), ("c", "d")] : List (String × String)).reverse.take
          (2 * defaultConfig.maxConversationHistory)).flatMap
          (fun t => [⟨"user", t.1⟩, ⟨"assistant", t.2⟩])
    ∧ getConversationHistory unreachableState 1 = [] :=
  conversation_read_newest_first defaultConfig [("a", "b"), ("c", "d")] 1 unreachableState
    (by decide) rfl

/-- C2: the code keeps up to `2*N` Redis list items per user — but each
item already holds a full user+assistant pair, so after 11 appends with the
default depth `N = 10` the store holds 11 pairs, exceeding the intended
N-pair bound; the cap only bites at `2*N = 20` pairs (third conjunct). -/
theorem conversation_trim_bound_bug :
    ((runAppends defaultConfig initialState 1 (List.replicate 11 ("u", "a"))).conv 1).length = 11
    ∧ defaultConfig.maxConversationHistory = 10
    ∧ ((runAppends defaultConfig initialState 1 (List.replicate 25 ("u", "a"))).conv 1).length
        = 2 * defaultConfig.maxConversationHistory := by
  decide

/-! ## Rate limiter -/

theorem filter_all_of_length_le {p : α → Bool} {l : List α}
    (h : l.length ≤ (l.filter p).length) : ∀ a ∈ l, p a = true := by
  induction l with
  | nil => intro a ha; cases ha
  | cons b l ih =>
    intro a ha
    by_cases hb : p b = true
    · cases ha with
      | head => exact hb
      | tail _ ha' =>
        refine ih ?_ a ha'
        rw [List.filter_cons_of_pos hb] at h
        simpa using h
    · exfalso
      rw [List.filter_cons_of_neg (by simpa using hb)] at h
      have := List.length_filter_le p l
      simp [List.length_cons] at h
      omega

/-- Invariant: every reachable rate-limit cache holds at most
`RATE_LIMIT_PER_MINUTE` recorded instants per user (an admit stores at most
`ceiling - 1` surviving instants plus the new one; a reject stores
nothing). -/
theorem rate_window_length_bound {cfg : Config} {c : Nat → List ℚ}
    (h : RateReachable cfg c) : ∀ u, (c u).length ≤ cfg.rateLimitPerMinute := by
  induction h with
  | init => intro u; simp
  | step c uid now _ ih =>
    intro u
    unfold checkRateLimit
    by_cases hle : cfg.rateLimitPerMinute ≤
        ((c uid).filter (fun t => decide (now - 60 < t))).length
    · simpa [hle] using ih u
    · simp only [hle, if_false]
      by_cases hu : u = uid
      · subst hu
        simp only [if_pos rfl, List.length_append, List.length_singleton]
        have := List.length_filter_le (fun t => decide (now - 60 < t)) (c u)
        simp at hle ⊢
        omega
      · simpa [hu] using ih u

/-! ## Claim theorems: rate limiter -/

/-- C3: `_check_rate_limit` admits exactly when, after dropping the
recorded instants not strictly newer than `now - 60`, fewer than
`RATE_LIMIT_PER_MINUTE` (default 30) remain; on admit it stores the pruned
window with the new instant appended (touching no other user), on reject it
stores nothing; and an instant exactly at the 60-second boundary does not
survive the pruning. -/
theorem rate_limit_check_spec (cfg : Config) (cache : Nat → List ℚ) (uid : Nat) (now : ℚ) :
    ((checkRateLimit cfg cache uid now).1 = true
        ↔ ((cache uid).filter (fun t => decide (now - 60 < t))).length < cfg.rateLimitPerMinute)
    ∧ ((checkRateLimit cfg cache uid now).1 = true →
        ((checkRateLimit cfg cache uid now).2 uid
            = (cache uid).filter (fun t => decide (now - 60 < t)) ++ [now]
          ∧ ∀ u, u ≠ uid → (checkRateLimit cfg cache uid now).2 u = cache u))
    ∧ ((checkRateLimit cfg cache uid now).1 = false →
        (checkRateLimit cfg cache uid now).2 = cache)
    ∧ (∀ t ∈ cache uid, t ≤ now - 60 →
        t ∉ (cache uid).filter (fun t => decide (now - 60 < t)))
    ∧ defaultConfig.rateLimitPerMinute = 30 := by
  unfold checkRateLimit
  by_cases hle : cfg.rateLimitPerMinute ≤
      ((cache uid).filter (fun t => decide (now - 60 < t))).length
  · refine ⟨by simp [hle], by simp [hle], by simp [hle], ?_, rfl⟩
    intro t _ hb hmem
    rw [List.mem_filter] at hmem
    have := of_decide_eq_true hmem.2
    linarith
  · refine ⟨by simp [hle]; omega, ?_, by simp [hle], ?_, rfl⟩
    · intro _
      simp only [hle, if_false]
      exact ⟨by simp, fun u hu => by simp [hu]⟩
    · intro t _ hb hmem
      rw [List.mem_filter] at hmem
      have := of_decide_eq_true hmem.2
      linarith

/-- Closed witness for `rate_limit_check_spec`: with the stored window
`[10, 40]` and a check at `now = 70`, the boundary instant `10 = 70 - 60`
is dropped, one instant survives, and the call is admitted, storing
`[40, 70]`. -/
theorem rate_limit_check_spec_wit :
    (checkRateLimit defaultConfig (fun u => if u = 1 then [(10 : ℚ), 40] else []) 1 70).1 = true
    ∧ (checkRateLimit defaultConfig (fun u => if u = 1 then [(10 : ℚ), 40] else []) 1 70).2 1
        = [(40 : ℚ), 70] := by
  have h := rate_limit_check_spec defaultConfig
    (fun u => if u = 1 then [(10 : ℚ), 40] else []) 1 70
  have h1 : (checkRateLimit defaultConfig
      (fun u => if u = 1 then [(10 : ℚ), 40] else []) 1 70).1 = true :=
    h.1.mpr (by norm_num [defaultConfig])
  refine ⟨h1, ?_⟩
  rw [(h.2.1 h1).1]
  norm_num

/-- C4: after every `_check_rate_limit` call on a reachable cache — admit
or reject — the stored window of the checked user holds no instant older
than 60 seconds before the check (on admit because it was just pruned; on
reject because the stored window cannot exceed the ceiling, so a full
pruned copy forces every stored instant to be fresh). -/
theorem rate_window_fresh_after_check (cfg : Config) (c : Nat → List ℚ)
    (h : RateReachable cfg c) (uid : Nat) (now : ℚ) :
    ∀ t ∈ (checkRateLimit cfg c uid now).2 uid, ¬ (t < now - 60) := by
  have hb := rate_window_length_bound h uid
  unfold checkRateLimit
  by_cases hle : cfg.rateLimitPerMinute ≤
      ((c uid).filter (fun t => decide (now - 60 < t))).length
  · simp only [hle, if_true]
    intro t ht
    have hall : ∀ a ∈ c uid, (fun t => decide (now - 60 < t)) a = true :=
      filter_all_of_length_le (by omega)
    have := of_decide_eq_true (hall t ht)
    linarith
  · simp only [hle, if_false, if_pos rfl]
    intro t ht
    rcases List.mem_append.mp ht with hmem | hmem
    · rw [List.mem_filter] at hmem
      have := of_decide_eq_true hmem.2
      linarith
    · rw [List.mem_singleton] at hmem
      subst hmem
      linarith

/-- Closed witness for `rate_window_fresh_after_check`: from the fresh
cache, a first check at `now = 100` stores the window `[100]`, whose only
instant is not older than `100 - 60`. -/
theorem rate_window_fresh_after_check_wit : ¬ ((100 : ℚ) < 100 - 60) :=
  rate_window_fresh_after_check defaultConfig (fun _ => []) RateReachable.init 1 100 100
    (by norm_num [checkRateLimit, defaultConfig])

/-! ## Routing: helper lemmas -/

theorem applyModelOverride_apiKey (inst : ProviderInstance) (m : Option String) :
    (applyModelOverride inst m).apiKey = inst.apiKey := by
  cases m with
  | none => rfl
  | some s => by_cases h : s = "" <;> simp [applyModelOverride, h]

theorem getUserProvider_allowed (svc : AIService) (u : Nat) (name : String)
    (inst : ProviderInstance) (h : getUserProvider svc u name = some inst) :
    credentialAllowed svc u inst := by
  unfold getUserProvider at h
  cases hs : svc.userSettingsService with
  | none =>
    simp only [hs] at h
    exact Or.inl ⟨name, inst, h, rfl⟩
  | some uss =>
    simp only [hs] at h
    cases hk : uss.apiKeysOf u name with
    | none =>
      simp only [hk] at h
      exact Or.inl ⟨name, inst, h, rfl⟩
    | some key =>
      simp only [hk] at h
      by_cases hke : key = ""
      · rw [if_pos hke] at h
        exact Or.inl ⟨name, inst, h, rfl⟩
      · rw [if_neg hke] at h
        by_cases ho : name = "openai"
        · rw [if_pos ho] at h
          injection h with h'
          subst h'
          exact Or.inr (Or.inr ⟨uss, name, key, hs, hk, rfl⟩)
        · rw [if_neg ho] at h
          by_cases hc : name = "claude"
          · rw [if_pos hc] at h
            injection h with h'
            subst h'
            exact Or.inr (Or.inr ⟨uss, name, key, hs, hk, rfl⟩)
          · rw [if_neg hc] at h
            exact Or.inl ⟨name, inst, h, rfl⟩

theorem resolveInMemory_allowed (svc : AIService) (u : Nat) (inst : ProviderInstance)
    (h : resolveProvider.resolveInMemory svc u = some inst) :
    credentialAllowed svc u inst := by
  unfold resolveProvider.resolveInMemory at h
  cases hp : svc.userPreferences u with
  | none =>
    simp only [hp] at h
    exact Or.inr (Or.inl ⟨inst, h, rfl⟩)
  | some pref =>
    simp only [hp] at h
    by_cases hpr : pref.provider = ""
    · rw [if_pos hpr] at h
      exact Or.inr (Or.inl ⟨inst, h, rfl⟩)
    · rw [if_neg hpr] at h
      cases hg : getUserProvider svc u pref.provider with
      | none =>
        simp only [hg] at h
        exact Or.inr (Or.inl ⟨inst, h, rfl⟩)
      | some i =>
        simp only [hg] at h
        injection h with h'
        subst h'
        rcases getUserProvider_allowed svc u pref.provider i hg with
          ⟨P, j, hj, hkey⟩ | ⟨j, hj, hkey⟩ | ⟨uss, P, k, h1, h2, h3⟩
        · exact Or.inl ⟨P, j, hj, by rw [applyModelOverride_apiKey]; exact hkey⟩
        · exact Or.inr (Or.inl ⟨j, hj, by rw [applyModelOverride_apiKey]; exact hkey⟩)
        · exact Or.inr (Or.inr ⟨uss, P, k, h1, h2, by rw [applyModelOverride_apiKey]; exact h3⟩)

theorem resolve_allowed (svc : AIService) (u : Nat) (inst : ProviderInstance)
    (h : resolveProvider svc (some u) = some inst) :
    credentialAllowed svc u inst := by
  simp only [resolveProvider] at h
  by_cases hu : u = 0
  · rw [if_pos hu] at h
    exact Or.inr (Or.inl ⟨inst, h, rfl⟩)
  · rw [if_neg hu] at h
    cases hs : svc.userSettingsService with
    | none =>
      simp only [hs] at h
      exact resolveInMemory_allowed svc u inst h
    | some uss =>
      simp only [hs] at h
      cases hp : uss.providerOf u with
      | none =>
        simp only [hp] at h
        exact resolveInMemory_allowed svc u inst h
      | some up =>
        simp only [hp] at h
        by_cases hup : up = ""
        · rw [if_pos hup] at h
          exact resolveInMemory_allowed svc u inst h
        · rw [if_neg hup] at h
          cases hg : getUserProvider svc u up with
          | none =>
            simp only [hg] at h
            exact resolveInMemory_allowed svc u inst h
          | some i =>
            simp only [hg] at h
            injection h with h'
            subst h'
            exact getUserProvider_allowed svc u up _ hg

theorem inMemoryRun_eq (svc : AIService) (g : GenOracle) (msgs : List ChatMessage) (u : Nat) :
    inMemoryRun svc g msgs u
      = match resolveProvider.resolveInMemory svc u with
        | some inst => g inst msgs
        | none => Except.ok unavailableText := by
  unfold inMemoryRun resolveProvider.resolveInMemory currentRun
  cases hp : svc.userPreferences u with
  | none => cases svc.currentProvider <;> rfl
  | some pref =>
    dsimp only
    by_cases hpr : pref.provider = ""
    · rw [if_pos hpr, if_pos hpr]
    · rw [if_neg hpr, if_neg hpr]
      cases getUserProvider svc u pref.provider with
      | some inst => rfl
      | none => cases svc.currentProvider <;> rfl

theorem generateTry_eq_resolve (svc : AIService) (g : GenOracle) (msgs : List ChatMessage)
    (uid : Option Nat) :
    generateTry svc g msgs uid
      = match resolveProvider svc uid with
        | some inst => g inst msgs
        | none => Except.ok unavailableText := by
  cases uid with
  | none =>
    unfold generateTry resolveProvider currentRun
    cases svc.currentProvider <;> rfl
  | some u =>
    by_cases hu : u = 0
    · unfold generateTry resolveProvider currentRun
      dsimp only
      rw [if_pos hu, if_pos hu]
    · unfold generateTry resolveProvider userSettingsRun
      dsimp only
      rw [if_neg hu, if_neg hu]
      cases svc.userSettingsService with
      | none => exact inMemoryRun_eq svc g msgs u
      | some uss =>
        dsimp only
        cases uss.providerOf u with
        | none => exact inMemoryRun_eq svc g msgs u
        | some up =>
          dsimp only
          by_cases hup : up = ""
          · rw [if_pos hup, if_pos hup]
            exact inMemoryRun_eq svc g msgs u
          · rw [if_neg hup, if_neg hup]
            cases getUserProvider svc u up with
            | some inst => rfl
            | none => exact inMemoryRun_eq svc g msgs u

/-- Shared route computation: a durable selected provider with a stored,
non-empty credential routes the call through the freshly constructed
adapter carrying that credential, the provider's hard-coded default model
and `max_tokens = 1000`, `temperature = 0.7`. -/
theorem durableRouteFresh (svc : AIService) (g : GenOracle) (msgs : List ChatMessage)
    (u : Nat) (uss : UserSettings) (P k : String)
    (hu : u ≠ 0) (hs : svc.userSettingsService = some uss)
    (hP : uss.providerOf u = some P) (hk : uss.apiKeysOf u P = some k) (hk0 : k ≠ "")
    (hkind : P = "openai" ∨ P = "claude") :
    generateTry svc g msgs (some u)
      = g ⟨P, k, if P = "openai" then "gpt-3.5-turbo" else "claude-3-haiku-20240307",
            1000, 7 / 10⟩ msgs := by
  have hP0 : P ≠ "" := by rcases hkind with h | h <;> simp [h]
  have hgup : getUserProvider svc u P
      = some ⟨P, k, if P = "openai" then "gpt-3.5-turbo" else "claude-3-haiku-20240307",
          1000, 7 / 10⟩ := by
    rcases hkind with h | h <;> subst h <;>
      simp only [getUserProvider, hs, hk, if_neg hk0] <;> simp
  simp only [generateTry, if_neg hu, userSettingsRun, hs, hP, if_neg hP0, hgup]

/-! ## Claim theorems: routing -/

/-- C5: for every user (nonzero id, per the source's `if user_id:`
truthiness guard) whose durable settings hold a selected provider — the
repository's providers are exactly `openai` and `claude` — together with a
stored non-empty credential for it, `generate_response` routes the call
through a fresh adapter instance constructed with that user's credential.
The service state is fully universally quantified, so this holds in
particular when a different process-wide default (`current_provider`) is
registered and whatever session overrides exist. -/
theorem user_credential_routing (svc : AIService) (g : GenOracle) (msgs : List ChatMessage)
    (u : Nat) (uss : UserSettings) (P k : String)
    (hu : u ≠ 0) (hs : svc.userSettingsService = some uss)
    (hP : uss.providerOf u = some P) (hk : uss.apiKeysOf u P = some k) (hk0 : k ≠ "")
    (hkind : P = "openai" ∨ P = "claude") :
    generateTry svc g msgs (some u)
      = g ⟨P, k, if P = "openai" then "gpt-3.5-turbo" else "claude-3-haiku-20240307",
            1000, 7 / 10⟩ msgs :=
  durableRouteFresh svc g msgs u uss P k hu hs hP hk hk0 hkind

/-- Closed witness for `user_credential_routing`: user 7 selected `openai`
and stored `sk-user7`; even though the Claude adapter is the registered
process-wide default in `svcU7`, the call goes to a fresh `openai` adapter
carrying `sk-user7`. -/
theorem user_credential_routing_wit :
    generateTry svcU7 gKindOracle [] (some 7)
      = gKindOracle ⟨"openai", "sk-user7", "gpt-3.5-turbo", 1000, 7 / 10⟩ [] := by
  have h := user_credential_routing svcU7 gKindOracle [] 7 ussU7 "openai" "sk-user7"
    (by decide) rfl (by decide) (by decide) (by decide) (Or.inl rfl)
  simpa using h

/-- C6, counterexample.  The claim says that a selected provider without a
stored credential makes routing fall back to the next-lower-precedence
source (the in-memory session override, then the process-wide default).
In `svcC6`, user 5's durable selection is `openai` with no stored
credential, and the user's in-memory session override is `claude`; the
claim therefore predicts a Claude-routed call, but the code hands the call
to the registered process-wide `openai` adapter (the observing oracle
reports `"openai"`), skipping the session override entirely. -/
theorem missing_credential_fallback_cex :
    generateResponse svcC6 gKindOracle [] (some 5) = "openai"
    ∧ svcC6.userPreferences 5 = some ⟨"claude", none⟩
    ∧ ussC6.providerOf 5 = some "openai"
    ∧ ussC6.apiKeysOf 5 "openai" = none := by
  constructor
  · rfl
  · exact ⟨rfl, rfl, rfl⟩

/-- C6, amended: for a user whose durable selected provider has no stored
(truthy) credential, routing uses the registered process-wide adapter for
that same provider when one is registered (the operator's credential, not
another user's); only when that provider is not registered does it fall
back to the in-memory-preference block and then the process default.  In
all cases the credential used is that of a registered process adapter, the
process default, or the requesting user's own stored credential — never a
credential stored for a different user. -/
theorem missing_credential_fail_closed (svc : AIService) (g : GenOracle)
    (msgs : List ChatMessage) (u : Nat) (uss : UserSettings) (P : String)
    (hu : u ≠ 0) (hs : svc.userSettingsService = some uss)
    (hP : uss.providerOf u = some P) (hP0 : P ≠ "")
    (hk : uss.apiKeysOf u P = none ∨ uss.apiKeysOf u P = some "") :
    (∀ instG, svc.providers P = some instG →
        generateTry svc g msgs (some u) = g instG msgs)
    ∧ (svc.providers P = none →
        generateTry svc g msgs (some u) = inMemoryRun svc g msgs u)
    ∧ (∀ inst, resolveProvider svc (some u) = some inst → credentialAllowed svc u inst) := by
  have hgp : getUserProvider svc u P = svc.providers P := by
    rcases hk with h | h <;> simp [getUserProvider, hs, h]
  refine ⟨?_, ?_, fun inst h => resolve_allowed svc u inst h⟩
  · intro instG hreg
    simp only [generateTry, if_neg hu, userSettingsRun, hs, hP, if_neg hP0, hgp, hreg]
  · intro hnone
    simp only [generateTry, if_neg hu, userSettingsRun, hs, hP, if_neg hP0, hgp, hnone]

/-- Closed witness for `missing_credential_fail_closed` on `svcC6`: the
registered process-wide `openai` adapter receives the call. -/
theorem missing_credential_fail_closed_wit :
    generateTry svcC6 gKindOracle [] (some 5) = gKindOracle openaiEnvInstance [] :=
  (missing_credential_fail_closed svcC6 gKindOracle [] 5 ussC6 "openai"
    (by decide) rfl (by decide) (by decide) (Or.inl rfl)).1 openaiEnvInstance rfl

/-- C9: `generate_response` never propagates an exception.  When nothing
resolves it returns the fixed unavailable text (a terminal outcome — no
retry exists in the code path); when the try block raises (`.error`), the
outermost handler converts it to the single generic apology; and in every
case the result is one of: the unavailable text, the apology, or the text
the resolved adapter's call returned. -/
theorem generate_response_never_raises (svc : AIService) (g : GenOracle)
    (msgs : List ChatMessage) (uid : Option Nat) :
    (resolveProvider svc uid = none → generateResponse svc g msgs uid = unavailableText)
    ∧ (∀ e, generateTry svc g msgs uid = Except.error e →
        generateResponse svc g msgs uid = apologyText)
    ∧ (generateResponse svc g msgs uid = unavailableText
        ∨ generateResponse svc g msgs uid = apologyText
        ∨ ∃ inst s, resolveProvider svc uid = some inst ∧ g inst msgs = Except.ok s
            ∧ generateResponse svc g msgs uid = s) := by
  have he := generateTry_eq_resolve svc g msgs uid
  refine ⟨?_, ?_, ?_⟩
  · intro h
    simp [generateResponse, he, h]
  · intro e h
    simp [generateResponse, h]
  · cases hr : resolveProvider svc uid with
    | none => exact Or.inl (by simp [generateResponse, he, hr])
    | some inst =>
      cases hg : g inst msgs with
      | error e => exact Or.inr (Or.inl (by simp [generateResponse, he, hr, hg]))
      | ok s => exact Or.inr (Or.inr ⟨inst, s, rfl, hg, by simp [generateResponse, he, hr, hg]⟩)

/-- Closed witness for `generate_response_never_raises`: with nothing
registered the fixed unavailable text is returned, and on a raising oracle
with a registered default the apology is returned. -/
theorem generate_response_never_raises_wit :
    generateResponse svcEmpty gKindOracle [] none = unavailableText
    ∧ generateResponse svcU7 gRaise [] none = apologyText :=
  ⟨(generate_response_never_raises svcEmpty gKindOracle [] none).1 rfl,
   (generate_response_never_raises svcU7 gRaise [] none).2.1 () rfl⟩

/-- C10 (implicit): on the durable-preference path the user's stored
`selected_model` (retrievable via `get_user_model`, here `modelOf`) is
never consulted: the fresh adapter always carries the provider's hard-coded
default model and the fixed parameters `max_tokens = 1000`,
`temperature = 0.7`, for any stored `mStored` (first conjunct, which never
mentions `mStored`).  A user-chosen model reaches the adapter only on the
in-memory-preference path, where `provider_instance.model = model` is
applied (second conjunct). -/
theorem stored_model_ignored (svc : AIService) (g : GenOracle) (msgs : List ChatMessage)
    (u : Nat) (uss : UserSettings) (P k mStored : String)
    (hu : u ≠ 0) (hs : svc.userSettingsService = some uss)
    (hP : uss.providerOf u = some P) (hk : uss.apiKeysOf u P = some k) (hk0 : k ≠ "")
    (hm : uss.modelOf u = some mStored)
    (hkind : P = "openai" ∨ P = "claude") :
    generateTry svc g msgs (some u)
      = g ⟨P, k, if P = "openai" then "gpt-3.5-turbo" else "claude-3-haiku-20240307",
            1000, 7 / 10⟩ msgs
    ∧ (∀ (svc' : AIService) (g' : GenOracle) (msgs' : List ChatMessage) (u' : Nat)
          (uss' : UserSettings) (k' m : String),
        u' ≠ 0 → svc'.userSettingsService = some uss' → uss'.providerOf u' = none →
        svc'.userPreferences u' = some ⟨"openai", some m⟩ → m ≠ "" →
        uss'.apiKeysOf u' "openai" = some k' → k' ≠ "" →
        generateTry svc' g' msgs' (some u') = g' ⟨"openai", k', m, 1000, 7 / 10⟩ msgs') := by
  constructor
  · exact durableRouteFresh svc g msgs u uss P k hu hs hP hk hk0 hkind
  · intro svc' g' msgs' u' uss' k' m hu' hs' hpo' hpref' hm0 hkey' hk0'
    have hgup : getUserProvider svc' u' "openai"
        = some ⟨"openai", k', "gpt-3.5-turbo", 1000, 7 / 10⟩ := by
      simp [getUserProvider, hs', hkey', hk0']
    simp only [generateTry, if_neg hu', userSettingsRun, hs', hpo', inMemoryRun, hpref',
      hgup, applyModelOverride]
    rw [if_neg (show ¬ ("openai" = "") by decide)]
    rw [if_neg hm0]

/-- Closed witness for `stored_model_ignored`: user 7 stored the preferred
model `gpt-4`, yet the durable path constructs the adapter with the default
`gpt-3.5-turbo`; on `svcMem`, the in-memory override's model `gpt-4` is
applied. -/
theorem stored_model_ignored_wit :
    generateTry svcU7 gKindOracle [] (some 7)
      = gKindOracle ⟨"openai", "sk-user7", "gpt-3.5-turbo", 1000, 7 / 10⟩ []
    ∧ generateTry svcMem gKindOracle [] (some 7)
      = gKindOracle ⟨"openai", "sk-user7", "gpt-4", 1000, 7 / 10⟩ [] := by
  have h := stored_model_ignored svcU7 gKindOracle [] 7 ussU7 "openai" "sk-user7" "gpt-4"
    (by decide) rfl (by decide) (by decide) (by decide) (by decide) (Or.inl rfl)
  refine ⟨by simpa using h.1, ?_⟩
  exact h.2 svcMem gKindOracle [] 7 ussMem "sk-user7" "gpt-4"
    (by decide) rfl (by decide) (by decide) (by decide) (by decide) (by decide)

/-! ## Claim theorems: provider test -/

/-- C8, counterexample.  The claim says `test_provider` succeeds iff the
returned text is a non-member of the whole fallback-notice set.  But the
code compares against a single pseudo-random draw
(`response != provider_instance.get_fallback_response()`): here the backend
returns fallback notice 0 (a member of the set) while the test's own draw
picks notice 1, so `test_provider` reports `true` for a fallback text. -/
theorem test_provider_membership_cex :
    testProvider svcU7 gFallback0 1 "openai" (some 7) = true
    ∧ fallbackResponses.getD 0 "" ∈ fallbackResponses := by
  exact ⟨rfl, by decide⟩

/-- C8, amended: on the user-credential path, `test_provider` returns
`true` iff the single generation call returns a non-empty text that
differs from the ONE pseudo-randomly drawn member of the fallback-notice
set (so a fallback text can still pass when a different member is drawn),
and returns `false` whenever the generation call raises. -/
theorem test_provider_single_draw (svc : AIService) (g : GenOracle) (draw : Nat)
    (name : String) (u : Nat) (uss : UserSettings) (inst : ProviderInstance)
    (hu : u ≠ 0) (hs : svc.userSettingsService = some uss)
    (hi : getUserProvider svc u name = some inst) :
    (∀ s, g inst testMessages = Except.ok s →
        (testProvider svc g draw name (some u) = true
          ↔ (s ≠ "" ∧ s ≠ getFallbackResponse draw)))
    ∧ (∀ e, g inst testMessages = Except.error e →
        testProvider svc g draw name (some u) = false) := by
  have hcond : (pyTruthyId (some u) : Prop) ∧ (svc.userSettingsService.isSome : Prop) := by
    constructor
    · simp [pyTruthyId, hu]
    · simp [hs]
  constructor
  · intro s hg
    simp [testProvider, testProviderTry, hcond, hi, hg]
  · intro e hg
    simp [testProvider, testProviderTry, hcond, hi, hg]

/-- Closed witness for `test_provider_single_draw`: a backend answering
`"openai"` (non-empty, distinct from draw 0) makes the test succeed, and a
raising backend makes it fail. -/
theorem test_provider_single_draw_wit :
    testProvider svcU7 gKindOracle 0 "openai" (some 7) = true
    ∧ testProvider svcU7 gRaise 0 "openai" (some 7) = false := by
  constructor
  · exact ((test_provider_single_draw svcU7 gKindOracle 0 "openai" 7 ussU7
      ⟨"openai", "sk-user7", "gpt-3.5-turbo", 1000, 7 / 10⟩
      (by decide) rfl rfl).1 "openai" rfl).mpr (by decide)
  · exact (test_provider_single_draw svcU7 gRaise 0 "openai" 7 ussU7
      ⟨"openai", "sk-user7", "gpt-3.5-turbo", 1000, 7 / 10⟩
      (by decide) rfl rfl).2 () rfl

/-! ## Claim theorems: credential validation -/

/-- If `p` is a prefix of both `c ++ x :: tx` and `c ++ y :: ty` where the
continuations diverge (`x ≠ y`), then `p` is a prefix of the common part
`c`. -/
theorem prefix_of_split {c : List Char} {x y : Char} {tx ty p : List Char}
    (hxy : x ≠ y) (hx : p <+: c ++ x :: tx) (hy : p <+: c ++ y :: ty) : p <+: c := by
  induction c generalizing p with
  | nil =>
    simp only [List.nil_append] at hx hy
    cases p with
    | nil => exact ⟨[], rfl⟩
    | cons a as =>
      obtain ⟨rfl, -⟩ := List.cons_prefix_cons.mp hx
      obtain ⟨h2, -⟩ := List.cons_prefix_cons.mp hy
      exact absurd h2 hxy
  | cons d c ih =>
    simp only [List.cons_append] at hx hy
    cases p with
    | nil => exact ⟨d :: c, rfl⟩
    | cons a as =>
      obtain ⟨rfl, hx'⟩ := List.cons_prefix_cons.mp hx
      obtain ⟨-, hy'⟩ := List.cons_prefix_cons.mp hy
      exact List.cons_prefix_cons.mpr ⟨rfl, ih hx' hy'⟩

/-- C7, counterexample.  The claim says `ClaudeProvider.validate_config`
accepts exactly the strings starting with one of TWO fixed literal
prefixes.  No such pair of prefixes exists: the source checks THREE
pairwise prefix-incomparable literals (`sk-ant-`, `sk-ant_api03-`,
`sk-ant_api04-`), and any two prefixes covering all three accepted stubs
would also accept a rejected string (`sk-antZ` or `sk-ant_api0Z`). -/
theorem claude_two_prefixes_cex :
    ¬ ∃ p₁ p₂ : List Char, ∀ s : List Char,
        claudeValidateConfig s = true ↔ (p₁ <+: s ∨ p₂ <+: s) := by
  rintro ⟨p₁, p₂, h⟩
  have contra : ∀ p : List Char, (p = p₁ ∨ p = p₂) → ∀ stub : List Char, p <+: stub →
      claudeValidateConfig (stub ++ ['Z']) = false → False := by
    intro p hp stub hps hbad
    have hpb : p <+: stub ++ ['Z'] := hps.trans (List.prefix_append stub ['Z'])
    have htrue : claudeValidateConfig (stub ++ ['Z']) = true :=
      (h _).mpr (hp.elim (fun e => Or.inl (e ▸ hpb)) (fun e => Or.inr (e ▸ hpb)))
    rw [hbad] at htrue
    exact Bool.false_ne_true htrue
  have h1 := (h claudeKeyStart1).mp (by decide)
  have h2 := (h claudeKeyStart2).mp (by decide)
  have h3 := (h claudeKeyStart3).mp (by decide)
  have e1 : claudeKeyStart1 = ['s', 'k', '-', 'a', 'n', 't'] ++ '-' :: [] := rfl
  have e2 : claudeKeyStart2
      = ['s', 'k', '-', 'a', 'n', 't'] ++ '_' :: ['a', 'p', 'i', '0', '3', '-'] := rfl
  have e2' : claudeKeyStart2
      = ['s', 'k', '-', 'a', 'n', 't', '_', 'a', 'p', 'i', '0'] ++ '3' :: ['-'] := rfl
  have e3 : claudeKeyStart3
      = ['s', 'k', '-', 'a', 'n', 't'] ++ '_' :: ['a', 'p', 'i', '0', '4', '-'] := rfl
  have e3' : claudeKeyStart3
      = ['s', 'k', '-', 'a', 'n', 't', '_', 'a', 'p', 'i', '0'] ++ '4' :: ['-'] := rfl
  have hbad6 : claudeValidateConfig (['s', 'k', '-', 'a', 'n', 't'] ++ ['Z']) = false := by
    decide
  have hbad11 : claudeValidateConfig
      (['s', 'k', '-', 'a', 'n', 't', '_', 'a', 'p', 'i', '0'] ++ ['Z']) = false := by decide
  rcases h1 with h1 | h1 <;> rcases h2 with h2 | h2 <;> rcases h3 with h3 | h3
  · exact contra p₁ (Or.inl rfl) _
      (prefix_of_split (by decide) (e1 ▸ h1) (e2 ▸ h2)) hbad6
  · exact contra p₁ (Or.inl rfl) _
      (prefix_of_split (by decide) (e1 ▸ h1) (e2 ▸ h2)) hbad6
  · exact contra p₁ (Or.inl rfl) _
      (prefix_of_split (by decide) (e1 ▸ h1) (e3 ▸ h3)) hbad6
  · exact contra p₂ (Or.inr rfl) _
      (prefix_of_split (by decide) (e2' ▸ h2) (e3' ▸ h3)) hbad11
  · exact contra p₁ (Or.inl rfl) _
      (prefix_of_split (by decide) (e2' ▸ h2) (e3' ▸ h3)) hbad11
  · exact contra p₂ (Or.inr rfl) _
      (prefix_of_split (by decide) (e1 ▸ h1) (e3 ▸ h3)) hbad6
  · exact contra p₂ (Or.inr rfl) _
      (prefix_of_split (by decide) (e1 ▸ h1) (e2 ▸ h2)) hbad6
  · exact contra p₂ (Or.inr rfl) _
      (prefix_of_split (by decide) (e1 ▸ h1) (e2 ▸ h2)) hbad6

/-- C7, amended: `OpenAIProvider.validate_config` accepts a key iff it
starts with the single literal `sk-`, and `ClaudeProvider.validate_config`
accepts a key iff it starts with one of THREE fixed literals (`sk-ant-`,
`sk-ant_api03-`, `sk-ant_api04-`); every other string fails the respective
validator. -/
theorem provider_key_formats (s : List Char) :
    (openaiValidateConfig s = true ↔ openaiKeyStart <+: s)
    ∧ (claudeValidateConfig s = true
        ↔ (claudeKeyStart1 <+: s ∨ claudeKeyStart2 <+: s ∨ claudeKeyStart3 <+: s)) := by
  constructor
  · cases s with
    | nil => simp [openaiValidateConfig, openaiKeyStart]
    | cons a as => simp [openaiValidateConfig]
  · cases s with
    | nil =>
      simp [claudeValidateConfig, claudeKeyStart1, claudeKeyStart2, claudeKeyStart3]
    | cons a as => simp [claudeValidateConfig, or_assoc]

/-- Closed witness for `provider_key_formats` at a concrete accepted and a
concrete rejected key. -/
theorem provider_key_formats_wit :
    openaiValidateConfig ['s', 'k', '-', 'x'] = true
    ∧ claudeValidateConfig ['s', 'k', '-', 'a', 'n', 't', '_', 'a', 'p', 'i', '0', '4', '-', 'x']
        = true :=
  ⟨(provider_key_formats _).1.mpr (by decide),
   (provider_key_formats _).2.mpr (Or.inr (Or.inr (by decide)))⟩
